import Mathlib

/-
  A shallow embedding of mofloc's core (src/mofloc/base.py): the Flow
  class with its registries, the sweep loop (_execute, _process_events,
  process_event), and the engine trampoline (execute).

  Modelling choices:
  * Entry-point names, events, argument values, return values, error
    kinds and action labels are all natural numbers.
  * Every callable registered on a flow is modelled by data describing
    what one invocation does: whether it calls discard_events, which
    exception it raises (if any), and - for handlers - the boolean it
    returns.  Invoking a callable appends a trace event recording the
    invocation, so "which callables ran, in which order" is the trace.
  * Python exceptions are the inductive Exc.  ChangeFlow carries the
    target flow as an index into the engine's flow list (Python carries
    the object; indices model object identity).  Arbitrary errors are
    `err kind payload`; an isinstance check against a registered type
    tuple becomes membership of the kind in a kind list, with kind 0
    reserved for the NoEvent class.
  * An event source is its label plus the list of results of its
    successive get_event calls (none = raises NoEvent); polling
    consumes the head.  Keyword arguments are not modelled.
  * The unbounded while loops of _execute and execute take fuel.
-/

namespace Mofloc

/-- Exceptions of base.py that the sweep machinery inspects. -/
inductive Exc : Type where
  | changeFlow (target : Nat) (entryPoint : Nat) (args : List Nat)
  | endFlow (value : Nat)
  | noEvent
  | err (kind : Nat) (payload : Nat)
deriving DecidableEq, Repr

/-- Trace events: one per invocation of a registered callable, plus
poll markers and the engine's run markers. -/
inductive Ev : Type where
  | entry (name : Nat) (args : List Nat)
  | pre (label : Nat)
  | poll (label : Nat)
  | handler (label : Nat) (event : Nat)
  | post (label : Nat)
  | cleanup (label : Nat) (e : Exc)
  | term (label : Nat)
  | discard (label : Nat)
  | runFlow (flowId : Nat) (entryPoint : Nat) (args : List Nat)
deriving DecidableEq, Repr

/-- What one invocation of a zero-argument registered callable does. -/
structure ActBeh : Type where
  setDiscard : Bool
  exc : Option Exc
deriving DecidableEq, Repr

/-- A registered pre/post action: a label plus its behaviour. -/
structure Act : Type where
  label : Nat
  beh : ActBeh
deriving DecidableEq, Repr

/-- What one invocation of an event handler on a given event does. -/
structure HandlerRes : Type where
  handled : Bool
  setDiscard : Bool
  exc : Option Exc
deriving DecidableEq, Repr

/-- A registered event handler: a label plus its behaviour per event. -/
structure Handler : Type where
  label : Nat
  run : Nat → HandlerRes

/-- An event source: a label plus the results of its successive
get_event calls (none = NoEvent raised).  A poll consumes the head;
an exhausted list keeps raising NoEvent. -/
structure Source : Type where
  label : Nat
  polls : List (Option Nat)
deriving DecidableEq, Repr

/-- The Flow object's registries (Flow.__init__). -/
structure Flow : Type where
  entryPoints : List (Nat × (List Nat → ActBeh))
  eventSources : List Source
  eventHandlers : List Handler
  preactions : List Act
  postactions : List (Act × Bool)
  onException : List (List Nat × Nat)
  onTermination : List Nat

/-- Outcome of a phase of event processing. -/
inductive EvRes : Type where
  | ok (processed : Bool)
  | raised (e : Exc)
deriving DecidableEq, Repr

/-- Result of dispatching one event to the handlers. -/
structure DispatchOut : Type where
  tr : List Ev
  flag : Bool
  res : EvRes
deriving DecidableEq, Repr

/-- Result of the source-polling phase. -/
structure PollOut : Type where
  tr : List Ev
  flag : Bool
  srcs : List Source
  res : EvRes
deriving DecidableEq, Repr

/-- Result of running a list of zero-argument actions. -/
structure ActsOut : Type where
  tr : List Ev
  flag : Bool
  exc : Option Exc
deriving DecidableEq, Repr

/-- Result of one iteration body of Flow._execute. -/
structure SweepOut : Type where
  tr : List Ev
  flag : Bool
  srcs : List Source
  exc : Option Exc
deriving DecidableEq, Repr

/-- A flow's mutable per-object state: the discard flag and the
residual event-source states. -/
structure FlowSt : Type where
  flag : Bool
  srcs : List Source
deriving DecidableEq, Repr

/-- How a call of Flow._execute can end. -/
inductive RunExit : Type where
  | change (target : Nat) (entryPoint : Nat) (args : List Nat)
  | endf (value : Nat)
  | failed (e : Exc)
  | missingEntryPoint (entryPoint : Nat)
  | fuelOut
deriving DecidableEq, Repr

/-- Result of a call of Flow._execute. -/
structure RunOut : Type where
  tr : List Ev
  ex : RunExit
  st : FlowSt
deriving DecidableEq, Repr

/-- How the engine can end. -/
inductive ExecResult : Type where
  | ret (value : Nat)
  | failed (e : Exc)
  | missing (entryPoint : Nat)
  | badFlowId (fid : Nat)
  | fuelOut
deriving DecidableEq, Repr

/-- Result of the engine. -/
structure ExecOut : Type where
  tr : List Ev
  res : ExecResult
deriving DecidableEq, Repr

/-- Flow.process_event: run every handler on the event, in registration
order; the result is whether any handler returned True.  An exception
raised by a handler aborts the remaining handlers. -/
def process_event (handlers : List Handler) (event : Nat) (flag : Bool) :
    DispatchOut :=
  match handlers with
  | [] => ⟨[], flag, EvRes.ok false⟩
  | h :: rest =>
    let r := h.run event
    let flag1 := flag || r.setDiscard
    match r.exc with
    | some e => ⟨[Ev.handler h.label event], flag1, EvRes.raised e⟩
    | none =>
      let p := process_event rest event flag1
      ⟨Ev.handler h.label event :: p.tr, p.flag,
        match p.res with
        | EvRes.ok b => EvRes.ok (r.handled || b)
        | EvRes.raised e => EvRes.raised e⟩

/-- The source loop of Flow._process_events: poll each source in order;
a NoEvent (from get_event or from a handler) is swallowed and the loop
moves on to the next source; after an event is dispatched without an
exception the discard flag is checked and polling stops if it is set;
any other exception propagates. -/
def pollSources (handlers : List Handler) :
    List Source → Bool → Bool → PollOut
  | [], flag, processed => ⟨[], flag, [], EvRes.ok processed⟩
  | s :: rest, flag, processed =>
    match s.polls with
    | [] =>
      let p := pollSources handlers rest flag processed
      ⟨Ev.poll s.label :: p.tr, p.flag, s :: p.srcs, p.res⟩
    | none :: tl =>
      let p := pollSources handlers rest flag processed
      ⟨Ev.poll s.label :: p.tr, p.flag, ⟨s.label, tl⟩ :: p.srcs, p.res⟩
    | some e :: tl =>
      let d := process_event handlers e flag
      match d.res with
      | EvRes.raised Exc.noEvent =>
        let p := pollSources handlers rest d.flag processed
        ⟨Ev.poll s.label :: (d.tr ++ p.tr), p.flag, ⟨s.label, tl⟩ :: p.srcs, p.res⟩
      | EvRes.raised e2 =>
        ⟨Ev.poll s.label :: d.tr, d.flag, ⟨s.label, tl⟩ :: rest, EvRes.raised e2⟩
      | EvRes.ok handled =>
        if d.flag then
          ⟨Ev.poll s.label :: d.tr, d.flag, ⟨s.label, tl⟩ :: rest,
            EvRes.ok (processed || handled)⟩
        else
          let p := pollSources handlers rest d.flag (processed || handled)
          ⟨Ev.poll s.label :: (d.tr ++ p.tr), p.flag, ⟨s.label, tl⟩ :: p.srcs, p.res⟩

/-- Flow._process_events: the source loop, then (if the discard flag is
set and no exception escaped) one discard_events call to every source
and a reset of the flag. -/
def process_events (handlers : List Handler) (srcs : List Source) (flag : Bool) :
    PollOut :=
  let p := pollSources handlers srcs flag false
  match p.res with
  | EvRes.raised _ => p
  | EvRes.ok processed =>
    if p.flag then
      ⟨p.tr ++ p.srcs.map (fun s => Ev.discard s.label), false, p.srcs,
        EvRes.ok processed⟩
    else p

/-- Run a list of zero-argument actions in order until one raises;
mk builds the trace event from the label. -/
def runActs (mk : Nat → Ev) : List Act → Bool → ActsOut
  | [], flag => ⟨[], flag, none⟩
  | a :: rest, flag =>
    let flag1 := flag || a.beh.setDiscard
    match a.beh.exc with
    | some e => ⟨[mk a.label], flag1, some e⟩
    | none =>
      let p := runActs mk rest flag1
      ⟨mk a.label :: p.tr, p.flag, p.exc⟩

/-- The post-action loop of Flow._execute: skip an action whose
must_have_event mark is set when no event was processed this sweep. -/
def runPostActs : List (Act × Bool) → Bool → Bool → ActsOut
  | [], _, flag => ⟨[], flag, none⟩
  | (a, must) :: rest, hasEvents, flag =>
    if must && !hasEvents then runPostActs rest hasEvents flag
    else
      let flag1 := flag || a.beh.setDiscard
      match a.beh.exc with
      | some e => ⟨[Ev.post a.label], flag1, some e⟩
      | none =>
        let p := runPostActs rest hasEvents flag1
        ⟨Ev.post a.label :: p.tr, p.flag, p.exc⟩

/-- One sweep of Flow._execute's while body (without the entry point):
pre-actions, _process_events, gated post-actions. -/
def sweepBody (f : Flow) (flag : Bool) (srcs : List Source) : SweepOut :=
  let a := runActs Ev.pre f.preactions flag
  match a.exc with
  | some e => ⟨a.tr, a.flag, srcs, some e⟩
  | none =>
    let p := process_events f.eventHandlers srcs a.flag
    match p.res with
    | EvRes.raised e => ⟨a.tr ++ p.tr, p.flag, p.srcs, some e⟩
    | EvRes.ok hasEvents =>
      let q := runPostActs f.postactions hasEvents p.flag
      ⟨a.tr ++ p.tr ++ q.tr, q.flag, p.srcs, q.exc⟩

/-- One iteration of the try body in Flow._execute: the entry point
first when it is still pending, then the sweep. -/
def iterBody (f : Flow) (pending : Option (Nat × List Nat × ActBeh))
    (flag : Bool) (srcs : List Source) : SweepOut :=
  match pending with
  | none => sweepBody f flag srcs
  | some (name, args, beh) =>
    let flag1 := flag || beh.setDiscard
    match beh.exc with
    | some e => ⟨[Ev.entry name args], flag1, srcs, some e⟩
    | none =>
      let p := sweepBody f flag1 srcs
      ⟨Ev.entry name args :: p.tr, p.flag, p.srcs, p.exc⟩

/-- Run the registered exception actions for a raised exception:
every table entry whose kind list contains the exception's kind runs,
in registration order (the Python loop has no break). -/
def cleanupTrace (table : List (List Nat × Nat)) (k : Nat) (e : Exc) : List Ev :=
  (table.filter (fun p => p.1.contains k)).map (fun p => Ev.cleanup p.2 e)

/-- The except clauses of Flow._execute: ChangeFlow/EndFlow run the
termination actions and re-raise; anything else runs every matching
exception action and re-raises. -/
def handleExc (f : Flow) (e : Exc) : List Ev × RunExit :=
  match e with
  | Exc.changeFlow t ep a => (f.onTermination.map Ev.term, RunExit.change t ep a)
  | Exc.endFlow v => (f.onTermination.map Ev.term, RunExit.endf v)
  | Exc.noEvent => (cleanupTrace f.onException 0 Exc.noEvent, RunExit.failed Exc.noEvent)
  | Exc.err k p => (cleanupTrace f.onException k (Exc.err k p), RunExit.failed (Exc.err k p))

/-- The while loop of Flow._execute, with fuel. -/
def flowLoop (f : Flow) : Nat → Option (Nat × List Nat × ActBeh) → Bool → List Source →
    RunOut
  | 0, _, flag, srcs => ⟨[], RunExit.fuelOut, ⟨flag, srcs⟩⟩
  | fuel + 1, pending, flag, srcs =>
    let b := iterBody f pending flag srcs
    match b.exc with
    | some e =>
      let h := handleExc f e
      ⟨b.tr ++ h.1, h.2, ⟨b.flag, b.srcs⟩⟩
    | none =>
      let p := flowLoop f fuel none b.flag b.srcs
      ⟨b.tr ++ p.tr, p.ex, p.st⟩

/-- Flow._execute: a flow with a non-empty registry and an unknown
entry point fails with MissingEntryPoint before the loop; a flow with
no entry points skips dispatch entirely; otherwise the entry point is
pending for the first iteration. -/
def flowRunSt (f : Flow) (st : FlowSt) (epid : Nat) (args : List Nat)
    (fuel : Nat) : RunOut :=
  match f.entryPoints with
  | [] => flowLoop f fuel none st.flag st.srcs
  | _ :: _ =>
    match List.lookup epid f.entryPoints with
    | none => ⟨[], RunExit.missingEntryPoint epid, st⟩
    | some m => flowLoop f fuel (some (epid, args, m args)) st.flag st.srcs

/-- The trampoline loop of execute: run the current flow; on ChangeFlow
rebind the (flow, entry point, args) triple and loop; on EndFlow return
its value; let anything else propagate. -/
def executeLoop (flows : List Flow) :
    Nat → Nat → Nat → List Nat → List FlowSt → Nat → ExecOut
  | 0, _, _, _, _, _ => ⟨[], ExecResult.fuelOut⟩
  | steps + 1, fid, epid, args, sts, runFuel =>
    match flows[fid]?, sts[fid]? with
    | some f, some st =>
      let r := flowRunSt f st epid args runFuel
      match r.ex with
      | RunExit.change t e a =>
        let p := executeLoop flows steps t e a (sts.set fid r.st) runFuel
        ⟨Ev.runFlow fid epid args :: (r.tr ++ p.tr), p.res⟩
      | RunExit.endf v => ⟨Ev.runFlow fid epid args :: r.tr, ExecResult.ret v⟩
      | RunExit.failed e => ⟨Ev.runFlow fid epid args :: r.tr, ExecResult.failed e⟩
      | RunExit.missingEntryPoint ep =>
        ⟨Ev.runFlow fid epid args :: r.tr, ExecResult.missing ep⟩
      | RunExit.fuelOut => ⟨Ev.runFlow fid epid args :: r.tr, ExecResult.fuelOut⟩
    | _, _ => ⟨[], ExecResult.badFlowId fid⟩

/-- execute: seed the triple from the arguments and run the trampoline;
every flow starts with a clear discard flag and its registered sources. -/
def execute (flows : List Flow) (fid epid : Nat) (args : List Nat)
    (steps runFuel : Nat) : ExecOut :=
  executeLoop flows steps fid epid args
    (flows.map (fun f => ⟨false, f.eventSources⟩)) runFuel

/-- Errors raised by registration operations. -/
inductive RegError : Type where
  | duplicate (name : Nat)
deriving DecidableEq, Repr

/-- Python dict assignment d[k] = v: overwrite in place if the key is
present, else append. -/
def dictSet {α : Type} : List (Nat × α) → Nat → α → List (Nat × α)
  | [], k, v => [(k, v)]
  | (k1, v1) :: rest, k, v =>
    if k1 = k then (k, v) :: rest else (k1, v1) :: dictSet rest k v

/-- Flow.register_entry_point: refuse a duplicate name, else insert. -/
def register_entry_point (f : Flow) (name : Nat) (m : List Nat → ActBeh) :
    Except RegError Flow :=
  if (List.lookup name f.entryPoints).isSome then
    Except.error (RegError.duplicate name)
  else
    Except.ok { f with entryPoints := f.entryPoints ++ [(name, m)] }

/-- Flow.redefine_entry_point: unconditional dict assignment. -/
def redefine_entry_point (f : Flow) (name : Nat) (m : List Nat → ActBeh) : Flow :=
  { f with entryPoints := dictSet f.entryPoints name m }

/-- Is this trace event an entry-point invocation? -/
def Ev.isEntry : Ev → Bool
  | Ev.entry _ _ => true
  | _ => false

/-- Is this trace event a termination-action invocation? -/
def Ev.isTerm : Ev → Bool
  | Ev.term _ => true
  | _ => false

/-- Is this trace event an exception-action invocation? -/
def Ev.isCleanup : Ev → Bool
  | Ev.cleanup _ _ => true
  | _ => false

/-- Events that the sweep machinery itself can emit: pre/post actions,
polls, handler invocations and discard_events calls. -/
def Ev.sweepish : Ev → Bool
  | Ev.pre _ => true
  | Ev.poll _ => true
  | Ev.handler _ _ => true
  | Ev.post _ => true
  | Ev.discard _ => true
  | _ => false

/-- The discard flag after a list of handlers processed an event. -/
def foldDiscard (hs : List Handler) (e : Nat) (flag : Bool) : Bool :=
  hs.foldl (fun fl h => fl || (h.run e).setDiscard) flag

/-- Did any handler report the event as handled? -/
def anyHandled (hs : List Handler) (e : Nat) : Bool :=
  hs.any (fun h => (h.run e).handled)

/-- The state of a source after one get_event call. -/
def consumeSrc (s : Source) : Source := ⟨s.label, s.polls.tail⟩

/-- The trace of polling one source when the flag starts clear: the
poll marker, then - if an event comes - the full dispatch. -/
def srcSweepTr (hs : List Handler) (s : Source) : List Ev :=
  match s.polls with
  | some e :: _ => Ev.poll s.label :: (process_event hs e false).tr
  | _ => [Ev.poll s.label]

/-- Does dispatching this source's next event (flag initially clear)
leave the discard flag set?  A source with no pending event cannot. -/
def dispatchFlag (hs : List Handler) (s : Source) : Bool :=
  match s.polls with
  | some e :: _ => (process_event hs e false).flag
  | _ => false

/-- Does dispatching this source's next event report it handled? -/
def srcHandled (hs : List Handler) (s : Source) : Bool :=
  match s.polls with
  | some e :: _ => anyHandled hs e
  | _ => false

/-! Concrete flows used by the witness and counterexample theorems. -/

/-- An empty flow to build the concrete examples from. -/
def emptyFlow : Flow :=
  ⟨[], [], [], [], [], [], []⟩

/-- C1 scenario, flow A: entry point 10 ("go") immediately raises
ChangeFlow to flow 1, entry point 20 ("default"), no arguments. -/
def c1A : Flow :=
  { emptyFlow with entryPoints := [(10, fun _ => ⟨false, some (Exc.changeFlow 1 20 [])⟩)] }

/-- C1 scenario, flow B: entry point 20 ("default") immediately raises
EndFlow with value 100 ("done"). -/
def c1B : Flow :=
  { emptyFlow with entryPoints := [(20, fun _ => ⟨false, some (Exc.endFlow 100)⟩)] }

/-- C2 scenario: a pre-action raises EndFlow 42; termination actions
8 and 9 are registered. -/
def c2F : Flow :=
  { emptyFlow with
    preactions := [⟨5, ⟨false, some (Exc.endFlow 42)⟩⟩]
    onTermination := [8, 9] }

/-- C3 counterexample: source 3 delivers event 5, the only handler
(label 1) returns False, and post-action 7 requires an event. -/
def c3F : Flow :=
  { emptyFlow with
    eventSources := [⟨3, [some 5]⟩]
    eventHandlers := [⟨1, fun _ => ⟨false, false, none⟩⟩]
    postactions := [(⟨7, ⟨false, none⟩⟩, true)] }

/-- C3 amended-claim witness: source 4 delivers event 6, handler 2
reports it handled, post-action 7 requires an event and post-action 8
does not. -/
def c3W : Flow :=
  { emptyFlow with
    eventSources := [⟨4, [some 6]⟩]
    eventHandlers := [⟨2, fun _ => ⟨true, false, none⟩⟩]
    preactions := [⟨1, ⟨false, none⟩⟩]
    postactions := [(⟨7, ⟨false, none⟩⟩, true), (⟨8, ⟨false, none⟩⟩, false)] }

/-- C4 witness: handler raises error of kind 2; the table has a
non-matching entry (kinds [5], cleanup 11) and a matching entry
(kinds [2, 3], cleanup 12). -/
def c4F : Flow :=
  { emptyFlow with
    eventSources := [⟨3, [some 5]⟩]
    eventHandlers := [⟨1, fun _ => ⟨false, false, some (Exc.err 2 77)⟩⟩]
    onException := [([5], 11), ([2, 3], 12)]
    onTermination := [8] }

/-- C5 witness: one handler that calls discard_events exactly on
event 5 and reports every event handled. -/
def c5H : List Handler :=
  [⟨1, fun e => ⟨true, e == 5, none⟩⟩]

/-- C5 witness sources: source 3 delivers 4 (no discard), source 6
delivers 5 (triggers discard), source 7 would deliver 9. -/
def c5Src1 : Source := ⟨3, [some 4]⟩

/-- The source whose event triggers discard_events in the C5 witness. -/
def c5SrcI : Source := ⟨6, [some 5]⟩

/-- The source that must not be polled in the C5 witness sweep. -/
def c5Src2 : Source := ⟨7, [some 9]⟩

/-- C6 witness: two handlers; the first reports event 5 handled, the
second still runs on it. -/
def c6H : List Handler :=
  [⟨1, fun e => ⟨e == 5, false, none⟩⟩, ⟨2, fun _ => ⟨false, false, none⟩⟩]

/-- C7/C9 witness: a flow with a single entry point named 10. -/
def c7F : Flow :=
  { emptyFlow with entryPoints := [(10, fun _ => ⟨false, some (Exc.endFlow 0)⟩)] }

/-- C8 witness: no entry points, one pre-action (label 5) that raises
EndFlow 1 so the run ends in the first sweep. -/
def c8F : Flow :=
  { emptyFlow with
    preactions := [⟨5, ⟨false, some (Exc.endFlow 1)⟩⟩] }

/-- C9 witness entry-point body. -/
def c9M : List Nat → ActBeh := fun _ => ⟨false, none⟩

/-- C10 witness handler: raises NoEvent on event 5, handles any other
event. -/
def c10H : Handler :=
  ⟨1, fun e => if e == 5 then ⟨false, false, some Exc.noEvent⟩
               else ⟨true, false, none⟩⟩

/-- C10 scenario: handler 1 raises NoEvent on event 5 (from source 3)
and handles event 6 (from source 4); a must-have-event post-action
raises EndFlow 9; an exception action is registered for the NoEvent
kind (0) and a termination action is registered. -/
def c10F : Flow :=
  { emptyFlow with
    eventSources := [⟨3, [some 5]⟩, ⟨4, [some 6]⟩]
    eventHandlers := [c10H]
    postactions := [(⟨7, ⟨false, some (Exc.endFlow 9)⟩⟩, true)]
    onException := [([0], 11)]
    onTermination := [13] }

/-! Helper lemmas. -/

/-- When no handler raises on the event, every handler runs, in
registration order, and the result is the disjunction of the returned
booleans. -/
theorem process_event_clean (hs : List Handler) (e : Nat) (flag : Bool)
    (h : ∀ h' ∈ hs, (h'.run e).exc = none) :
    process_event hs e flag =
      ⟨hs.map (fun h' => Ev.handler h'.label e), foldDiscard hs e flag,
        EvRes.ok (anyHandled hs e)⟩ := by
  induction hs generalizing flag with
  | nil => simp [process_event, foldDiscard, anyHandled]
  | cons h1 rest ih =>
    have he : (h1.run e).exc = none := h h1 (by simp)
    have hrest : ∀ h' ∈ rest, (h'.run e).exc = none := fun h' hm => h h' (by simp [hm])
    simp [process_event, he, ih _ hrest, foldDiscard, anyHandled]

/-- Every event in a dispatch trace is a handler invocation on the
dispatched event. -/
theorem process_event_tr_handlers (hs : List Handler) (e : Nat) (flag : Bool) :
    ∀ x ∈ (process_event hs e flag).tr, ∃ l, x = Ev.handler l e := by
  induction hs generalizing flag with
  | nil => simp [process_event]
  | cons h1 rest ih =>
    intro x hx
    rw [process_event] at hx
    rcases hexc : (h1.run e).exc with _ | e1
    · simp only [hexc, List.mem_cons] at hx
      rcases hx with hx | hx
      · exact ⟨h1.label, hx⟩
      · exact ih _ x hx
    · simp only [hexc, List.mem_singleton] at hx
      exact ⟨h1.label, hx⟩

/-- If the handlers up to some point do not raise on the event and that
handler raises, dispatch stops there: the handlers after it never see
the event, and the exception is the raised one. -/
theorem process_event_raise (g1 : List Handler) (h1 : Handler) (g2 : List Handler)
    (e : Nat) (flag : Bool) (ex : Exc)
    (hc : ∀ h' ∈ g1, (h'.run e).exc = none)
    (hr : (h1.run e).exc = some ex) :
    process_event (g1 ++ h1 :: g2) e flag =
      ⟨g1.map (fun h' => Ev.handler h'.label e) ++ [Ev.handler h1.label e],
        (foldDiscard g1 e flag) || (h1.run e).setDiscard,
        EvRes.raised ex⟩ := by
  induction g1 generalizing flag with
  | nil => simp [process_event, hr, foldDiscard]
  | cons h0 rest ih =>
    have he : (h0.run e).exc = none := hc h0 (by simp)
    have hrest : ∀ h' ∈ rest, (h'.run e).exc = none := fun h' hm => hc h' (by simp [hm])
    simp [process_event, he, ih _ hrest, foldDiscard]

/-- When no action raises, all actions run in order and the flag
accumulates their discard requests. -/
theorem runActs_clean (mk : Nat → Ev) (acts : List Act) (flag : Bool)
    (h : ∀ a ∈ acts, a.beh.exc = none) :
    runActs mk acts flag =
      ⟨acts.map (fun a => mk a.label),
        acts.foldl (fun fl a => fl || a.beh.setDiscard) flag, none⟩ := by
  induction acts generalizing flag with
  | nil => simp [runActs]
  | cons a rest ih =>
    have ha : a.beh.exc = none := h a (by simp)
    have hrest : ∀ a' ∈ rest, a'.beh.exc = none := fun a' hm => h a' (by simp [hm])
    simp [runActs, ha, ih _ hrest]

/-- Every event emitted by an action list comes from one of its
actions. -/
theorem runActs_tr_shape (mk : Nat → Ev) (acts : List Act) (flag : Bool) :
    ∀ x ∈ (runActs mk acts flag).tr, ∃ a ∈ acts, x = mk a.label := by
  induction acts generalizing flag with
  | nil => simp [runActs]
  | cons a rest ih =>
    intro x hx
    rw [runActs] at hx
    rcases hexc : a.beh.exc with _ | e1
    · simp only [hexc, List.mem_cons] at hx
      rcases hx with hx | hx
      · exact ⟨a, by simp, hx⟩
      · obtain ⟨a', ha', hx⟩ := ih _ x hx
        exact ⟨a', by simp [ha'], hx⟩
    · simp only [hexc, List.mem_singleton] at hx
      exact ⟨a, by simp, hx⟩

/-- A non-empty action list always emits its first action first. -/
theorem runActs_cons_head (mk : Nat → Ev) (a : Act) (acts : List Act) (flag : Bool) :
    ∃ t, (runActs mk (a :: acts) flag).tr = mk a.label :: t := by
  rw [runActs]
  rcases hexc : a.beh.exc with _ | e1
  · exact ⟨(runActs mk acts (flag || a.beh.setDiscard)).tr, by simp⟩
  · exact ⟨[], by simp⟩

/-- When no post-action raises, exactly the post-actions passing the
must_have_event gate run, in registration order. -/
theorem runPostActs_clean (acts : List (Act × Bool)) (hasEv flag : Bool)
    (h : ∀ a ∈ acts, a.1.beh.exc = none) :
    runPostActs acts hasEv flag =
      ⟨(acts.filter (fun p => !p.2 || hasEv)).map (fun p => Ev.post p.1.label),
        (acts.filter (fun p => !p.2 || hasEv)).foldl
          (fun fl p => fl || p.1.beh.setDiscard) flag,
        none⟩ := by
  induction acts generalizing flag with
  | nil => simp [runPostActs]
  | cons p rest ih =>
    obtain ⟨a, must⟩ := p
    have ha : a.beh.exc = none := h (a, must) (by simp)
    have hrest : ∀ a' ∈ rest, a'.1.beh.exc = none :=
      fun a' hm => h a' (List.mem_cons_of_mem _ hm)
    rw [runPostActs]
    cases must <;> cases hasEv <;> simp [ha, ih _ hrest]

/-- Every event emitted by the post-action loop is a post-action
invocation. -/
theorem runPostActs_tr_shape (acts : List (Act × Bool)) (hasEv flag : Bool) :
    ∀ x ∈ (runPostActs acts hasEv flag).tr, ∃ l, x = Ev.post l := by
  induction acts generalizing flag with
  | nil => simp [runPostActs]
  | cons p rest ih =>
    obtain ⟨a, must⟩ := p
    intro x hx
    rw [runPostActs] at hx
    by_cases hg : (must && !hasEv) = true
    · rw [if_pos hg] at hx
      exact ih _ x hx
    · rw [if_neg hg] at hx
      rcases hexc : a.beh.exc with _ | e1
      · simp only [hexc, List.mem_cons] at hx
        rcases hx with hx | hx
        · exact ⟨a.label, hx⟩
        · exact ih _ x hx
      · simp only [hexc, List.mem_singleton] at hx
        exact ⟨a.label, hx⟩

/-- Every event emitted by the source-polling loop is a poll marker or
a handler invocation. -/
theorem pollSources_tr_shape (hs : List Handler) (srcs : List Source)
    (flag pr : Bool) :
    ∀ x ∈ (pollSources hs srcs flag pr).tr,
      (∃ l, x = Ev.poll l) ∨ ∃ l ev, x = Ev.handler l ev := by
  induction srcs generalizing flag pr with
  | nil => simp [pollSources]
  | cons s rest ih =>
    intro x hx
    rw [pollSources] at hx
    rcases hpolls : s.polls with _ | ⟨oe, tl⟩
    · simp only [hpolls, List.mem_cons] at hx
      rcases hx with hx | hx
      · exact Or.inl ⟨s.label, hx⟩
      · exact ih _ _ x hx
    · rcases oe with _ | e
      · simp only [hpolls, List.mem_cons] at hx
        rcases hx with hx | hx
        · exact Or.inl ⟨s.label, hx⟩
        · exact ih _ _ x hx
      · rcases hres : (process_event hs e flag).res with b | ex
        · simp only [hpolls, hres] at hx
          by_cases hf : (process_event hs e flag).flag = true
          · rw [if_pos hf] at hx
            simp only [List.mem_cons] at hx
            rcases hx with hx | hx
            · exact Or.inl ⟨s.label, hx⟩
            · obtain ⟨l, hl⟩ := process_event_tr_handlers hs e flag x hx
              exact Or.inr ⟨l, e, hl⟩
          · rw [if_neg hf] at hx
            simp only [List.mem_cons, List.mem_append] at hx
            rcases hx with hx | hx | hx
            · exact Or.inl ⟨s.label, hx⟩
            · obtain ⟨l, hl⟩ := process_event_tr_handlers hs e flag x hx
              exact Or.inr ⟨l, e, hl⟩
            · exact ih _ _ x hx
        · cases ex with
          | noEvent =>
            simp only [hpolls, hres, List.mem_cons, List.mem_append] at hx
            rcases hx with hx | hx | hx
            · exact Or.inl ⟨s.label, hx⟩
            · obtain ⟨l, hl⟩ := process_event_tr_handlers hs e flag x hx
              exact Or.inr ⟨l, e, hl⟩
            · exact ih _ _ x hx
          | changeFlow t ep a =>
            simp only [hpolls, hres, List.mem_cons] at hx
            rcases hx with hx | hx
            · exact Or.inl ⟨s.label, hx⟩
            · obtain ⟨l, hl⟩ := process_event_tr_handlers hs e flag x hx
              exact Or.inr ⟨l, e, hl⟩
          | endFlow v =>
            simp only [hpolls, hres, List.mem_cons] at hx
            rcases hx with hx | hx
            · exact Or.inl ⟨s.label, hx⟩
            · obtain ⟨l, hl⟩ := process_event_tr_handlers hs e flag x hx
              exact Or.inr ⟨l, e, hl⟩
          | err k p =>
            simp only [hpolls, hres, List.mem_cons] at hx
            rcases hx with hx | hx
            · exact Or.inl ⟨s.label, hx⟩
            · obtain ⟨l, hl⟩ := process_event_tr_handlers hs e flag x hx
              exact Or.inr ⟨l, e, hl⟩

/-- Every event emitted by _process_events is a poll marker, a handler
invocation or a discard_events call. -/
theorem process_events_tr_shape (hs : List Handler) (srcs : List Source)
    (flag : Bool) :
    ∀ x ∈ (process_events hs srcs flag).tr,
      (∃ l, x = Ev.poll l) ∨ (∃ l ev, x = Ev.handler l ev) ∨
        ∃ l, x = Ev.discard l := by
  intro x hx
  rw [process_events] at hx
  rcases hres : (pollSources hs srcs flag false).res with b | ex
  · by_cases hf : (pollSources hs srcs flag false).flag = true
    · simp only [hres, hf, if_true, List.mem_append] at hx
      rcases hx with hx | hx
      · rcases pollSources_tr_shape hs srcs flag false x hx with h1 | h1
        · exact Or.inl h1
        · exact Or.inr (Or.inl h1)
      · simp only [List.mem_map] at hx
        obtain ⟨s, _, hs1⟩ := hx
        exact Or.inr (Or.inr ⟨s.label, hs1.symm⟩)
    · simp only [hres, hf, if_false] at hx
      rcases pollSources_tr_shape hs srcs flag false x hx with h1 | h1
      · exact Or.inl h1
      · exact Or.inr (Or.inl h1)
  · simp only [hres] at hx
    rcases pollSources_tr_shape hs srcs flag false x hx with h1 | h1
    · exact Or.inl h1
    · exact Or.inr (Or.inl h1)

/-- Every event emitted by one sweep is a sweep event. -/
theorem sweepBody_tr_shape (f : Flow) (flag : Bool) (srcs : List Source) :
    ∀ x ∈ (sweepBody f flag srcs).tr, x.sweepish = true := by
  intro x hx
  rw [sweepBody] at hx
  have hpre : ∀ y ∈ (runActs Ev.pre f.preactions flag).tr, Ev.sweepish y = true := by
    intro y hy
    obtain ⟨a, _, hy⟩ := runActs_tr_shape Ev.pre f.preactions flag y hy
    simp [hy, Ev.sweepish]
  rcases hexc : (runActs Ev.pre f.preactions flag).exc with _ | e1
  · simp only [hexc] at hx
    rcases hres : (process_events f.eventHandlers srcs
        (runActs Ev.pre f.preactions flag).flag).res with b | ex
    · simp only [hres, List.mem_append] at hx
      rcases hx with (hx | hx) | hx
      · exact hpre x hx
      · rcases process_events_tr_shape _ _ _ x hx with ⟨l, hl⟩ | ⟨l, ev, hl⟩ | ⟨l, hl⟩ <;>
          simp [hl, Ev.sweepish]
      · obtain ⟨l, hl⟩ := runPostActs_tr_shape _ _ _ x hx
        simp [hl, Ev.sweepish]
    · simp only [hres, List.mem_append] at hx
      rcases hx with hx | hx
      · exact hpre x hx
      · rcases process_events_tr_shape _ _ _ x hx with ⟨l, hl⟩ | ⟨l, ev, hl⟩ | ⟨l, hl⟩ <;>
          simp [hl, Ev.sweepish]
  · simp only [hexc] at hx
    exact hpre x hx

/-- The trace of a sweep starts with the pre-action trace. -/
theorem sweepBody_tr_decomp (f : Flow) (flag : Bool) (srcs : List Source) :
    ∃ t, (sweepBody f flag srcs).tr =
      (runActs Ev.pre f.preactions flag).tr ++ t := by
  rw [sweepBody]
  rcases hexc : (runActs Ev.pre f.preactions flag).exc with _ | e1
  · rcases hres : (process_events f.eventHandlers srcs
        (runActs Ev.pre f.preactions flag).flag).res with b | ex
    · simp only [hexc, hres]
      exact ⟨(process_events f.eventHandlers srcs
            (runActs Ev.pre f.preactions flag).flag).tr ++
          (runPostActs f.postactions b
            (process_events f.eventHandlers srcs
              (runActs Ev.pre f.preactions flag).flag).flag).tr,
        by simp⟩
    · simp only [hexc, hres]
      exact ⟨(process_events f.eventHandlers srcs
          (runActs Ev.pre f.preactions flag).flag).tr, rfl⟩
  · simp only [hexc]
    exact ⟨[], by simp⟩

/-- A sweep whose flow has at least one pre-action begins with that
pre-action. -/
theorem sweepBody_pre_head (f : Flow) (flag : Bool) (srcs : List Source)
    (a : Act) (rest : List Act) (hp : f.preactions = a :: rest) :
    ∃ t, (sweepBody f flag srcs).tr = Ev.pre a.label :: t := by
  obtain ⟨t, ht⟩ := sweepBody_tr_decomp f flag srcs
  obtain ⟨t0, ht0⟩ := runActs_cons_head Ev.pre a rest flag
  rw [hp, ht0] at ht
  exact ⟨t0 ++ t, by simp [ht]⟩

/-- Every event emitted by an iteration body is a sweep event or an
entry-point invocation. -/
theorem iterBody_tr_shape (f : Flow) (pending : Option (Nat × List Nat × ActBeh))
    (flag : Bool) (srcs : List Source) :
    ∀ x ∈ (iterBody f pending flag srcs).tr,
      x.sweepish = true ∨ x.isEntry = true := by
  intro x hx
  rcases pending with _ | ⟨name, args, beh⟩
  · exact Or.inl (sweepBody_tr_shape f flag srcs x hx)
  · rw [iterBody] at hx
    rcases hexc : beh.exc with _ | e1
    · simp only [hexc, List.mem_cons] at hx
      rcases hx with hx | hx
      · exact Or.inr (by simp [hx, Ev.isEntry])
      · exact Or.inl (sweepBody_tr_shape f _ srcs x hx)
    · simp only [hexc, List.mem_singleton] at hx
      exact Or.inr (by simp [hx, Ev.isEntry])

/-- Sweep events and entry invocations are neither termination actions
nor exception actions. -/
theorem sweepish_or_entry_not_term_cleanup (x : Ev)
    (h : x.sweepish = true ∨ x.isEntry = true) :
    x.isTerm = false ∧ x.isCleanup = false := by
  cases x <;> simp [Ev.isTerm, Ev.isCleanup] <;>
    simp [Ev.sweepish, Ev.isEntry] at h

/-- An iteration body never runs a termination action or an exception
action. -/
theorem iterBody_no_term_cleanup (f : Flow)
    (pending : Option (Nat × List Nat × ActBeh)) (flag : Bool)
    (srcs : List Source) :
    ∀ x ∈ (iterBody f pending flag srcs).tr,
      x.isTerm = false ∧ x.isCleanup = false :=
  fun x hx =>
    sweepish_or_entry_not_term_cleanup x (iterBody_tr_shape f pending flag srcs x hx)

/-- Everything the except clauses emit is a termination action or an
exception action. -/
theorem handleExc_tr_shape (f : Flow) (e : Exc) :
    ∀ x ∈ (handleExc f e).1,
      (∃ l, x = Ev.term l) ∨ ∃ l e', x = Ev.cleanup l e' := by
  intro x hx
  cases e <;> simp only [handleExc] at hx
  case changeFlow t ep a =>
    obtain ⟨l, _, hl⟩ := List.mem_map.mp hx
    exact Or.inl ⟨l, hl.symm⟩
  case endFlow v =>
    obtain ⟨l, _, hl⟩ := List.mem_map.mp hx
    exact Or.inl ⟨l, hl.symm⟩
  case noEvent =>
    obtain ⟨p, _, hl⟩ := List.mem_map.mp hx
    exact Or.inr ⟨p.2, Exc.noEvent, hl.symm⟩
  case err k p =>
    obtain ⟨q, _, hl⟩ := List.mem_map.mp hx
    exact Or.inr ⟨q.2, Exc.err k p, hl.symm⟩

/-- The except clauses never emit an entry invocation. -/
theorem handleExc_no_entry (f : Flow) (e : Exc) :
    ∀ x ∈ (handleExc f e).1, x.isEntry = false := by
  intro x hx
  rcases handleExc_tr_shape f e x hx with ⟨l, hl⟩ | ⟨l, e', hl⟩ <;>
    simp [hl, Ev.isEntry]

/-- The except clauses never exit with MissingEntryPoint. -/
theorem handleExc_ex_ne_missing (f : Flow) (e : Exc) (ep : Nat) :
    (handleExc f e).2 ≠ RunExit.missingEntryPoint ep := by
  cases e <;> simp [handleExc]

/-- Unfolding the loop when the iteration body raises: the except
clauses run and the loop stops. -/
theorem flowLoop_raise (f : Flow) (fuel : Nat)
    (pending : Option (Nat × List Nat × ActBeh)) (flag : Bool)
    (srcs : List Source) (e : Exc)
    (h : (iterBody f pending flag srcs).exc = some e) :
    flowLoop f (fuel + 1) pending flag srcs =
      ⟨(iterBody f pending flag srcs).tr ++ (handleExc f e).1,
        (handleExc f e).2,
        ⟨(iterBody f pending flag srcs).flag,
          (iterBody f pending flag srcs).srcs⟩⟩ := by
  rw [flowLoop]
  simp only [h]

/-- Unfolding the loop when the iteration body completes. -/
theorem flowLoop_cont (f : Flow) (fuel : Nat)
    (pending : Option (Nat × List Nat × ActBeh)) (flag : Bool)
    (srcs : List Source)
    (h : (iterBody f pending flag srcs).exc = none) :
    flowLoop f (fuel + 1) pending flag srcs =
      ⟨(iterBody f pending flag srcs).tr ++
          (flowLoop f fuel none (iterBody f pending flag srcs).flag
            (iterBody f pending flag srcs).srcs).tr,
        (flowLoop f fuel none (iterBody f pending flag srcs).flag
          (iterBody f pending flag srcs).srcs).ex,
        (flowLoop f fuel none (iterBody f pending flag srcs).flag
          (iterBody f pending flag srcs).srcs).st⟩ := by
  rw [flowLoop]
  simp only [h]

/-- The loop never exits with MissingEntryPoint. -/
theorem flowLoop_ex_ne_missing (f : Flow) (fuel : Nat)
    (pending : Option (Nat × List Nat × ActBeh)) (flag : Bool)
    (srcs : List Source) (ep : Nat) :
    (flowLoop f fuel pending flag srcs).ex ≠ RunExit.missingEntryPoint ep := by
  induction fuel generalizing pending flag srcs with
  | zero => simp [flowLoop]
  | succ fuel ih =>
    rcases hexc : (iterBody f pending flag srcs).exc with _ | e1
    · rw [flowLoop_cont f fuel pending flag srcs hexc]
      exact ih none _ _
    · rw [flowLoop_raise f fuel pending flag srcs e1 hexc]
      exact handleExc_ex_ne_missing f e1 ep

/-- A loop with no pending entry point never invokes an entry point. -/
theorem flowLoop_none_no_entry (f : Flow) (fuel : Nat) (flag : Bool)
    (srcs : List Source) :
    ∀ x ∈ (flowLoop f fuel none flag srcs).tr, x.isEntry = false := by
  induction fuel generalizing flag srcs with
  | zero => simp [flowLoop]
  | succ fuel ih =>
    intro x hx
    rcases hexc : (iterBody f none flag srcs).exc with _ | e1
    · rw [flowLoop_cont f fuel none flag srcs hexc] at hx
      simp only [List.mem_append] at hx
      rcases hx with hx | hx
      · have hsw := sweepBody_tr_shape f flag srcs x hx
        cases x <;> first
          | rfl
          | simp [Ev.sweepish] at hsw
      · exact ih _ _ x hx
    · rw [flowLoop_raise f fuel none flag srcs e1 hexc] at hx
      simp only [List.mem_append] at hx
      rcases hx with hx | hx
      · have hsw := sweepBody_tr_shape f flag srcs x hx
        cases x <;> first
          | rfl
          | simp [Ev.sweepish] at hsw
      · exact handleExc_no_entry f e1 x hx

/-- When no registered kind list contains the kind, no exception
action runs. -/
theorem cleanupTrace_no_match (table : List (List Nat × Nat)) (k : Nat) (e : Exc)
    (h : ∀ q ∈ table, q.1.contains k = false) :
    cleanupTrace table k e = [] := by
  rw [cleanupTrace]
  rw [List.filter_eq_nil_iff.mpr (by intro q hq; rw [h q hq]; simp)]
  rfl

/-- Splitting the table at the first matching entry: that cleanup runs
first, followed by the later matching ones. -/
theorem cleanupTrace_first (l1 : List (List Nat × Nat)) (ks : List Nat)
    (lbl : Nat) (l2 : List (List Nat × Nat)) (k : Nat) (e : Exc)
    (h1 : ∀ q ∈ l1, q.1.contains k = false)
    (h2 : ks.contains k = true) :
    cleanupTrace (l1 ++ (ks, lbl) :: l2) k e =
      Ev.cleanup lbl e :: cleanupTrace l2 k e := by
  rw [cleanupTrace, List.filter_append]
  rw [List.filter_eq_nil_iff.mpr (by intro q hq; rw [h1 q hq]; simp)]
  rw [List.filter_cons_of_pos (by simpa using h2)]
  simp [cleanupTrace]

/-- Each exception action the table runs comes from a table entry, and
it receives the raised exception. -/
theorem cleanupTrace_mem (table : List (List Nat × Nat)) (k : Nat) (e : Exc) :
    ∀ x ∈ cleanupTrace table k e, ∃ q ∈ table, x = Ev.cleanup q.2 e := by
  intro x hx
  rw [cleanupTrace] at hx
  obtain ⟨q, hq, hx⟩ := List.mem_map.mp hx
  exact ⟨q, List.mem_of_mem_filter hq, hx.symm⟩

/-- With pairwise distinct cleanups, the first matching cleanup runs
exactly once. -/
theorem cleanupTrace_count_first (l1 : List (List Nat × Nat)) (ks : List Nat)
    (lbl : Nat) (l2 : List (List Nat × Nat)) (k : Nat) (e : Exc)
    (h1 : ∀ q ∈ l1, q.1.contains k = false)
    (h2 : ks.contains k = true)
    (h3 : lbl ∉ l2.map Prod.snd) :
    List.count (Ev.cleanup lbl e) (cleanupTrace (l1 ++ (ks, lbl) :: l2) k e) = 1 := by
  rw [cleanupTrace_first l1 ks lbl l2 k e h1 h2]
  rw [List.count_cons_self]
  rw [List.count_eq_zero.mpr]
  intro hmem
  obtain ⟨q, hq, hx⟩ := cleanupTrace_mem l2 k e _ hmem
  have : lbl = q.2 := by
    injection hx
  exact h3 (List.mem_map.mpr ⟨q, hq, this.symm⟩)

/-- Python dict assignment makes the key map to the new value. -/
theorem lookup_dictSet {α : Type} (l : List (Nat × α)) (k : Nat) (v : α) :
    List.lookup k (dictSet l k v) = some v := by
  induction l with
  | nil => simp [dictSet, List.lookup]
  | cons p rest ih =>
    obtain ⟨k1, v1⟩ := p
    rw [dictSet]
    by_cases hk : k1 = k
    · rw [if_pos hk]
      simp [List.lookup]
    · rw [if_neg hk]
      rw [List.lookup]
      have hne : (k == k1) = false := by
        simp [beq_iff_eq]
        exact fun h => hk h.symm
      rw [hne]
      exact ih

/-- The trampoline on a ChangeFlow exit: the triple is rebound to the
carried flow, entry point and arguments, and that flow runs next, with
nothing in between. -/
theorem executeLoop_change (flows : List Flow) (steps fid epid : Nat)
    (args : List Nat) (sts : List FlowSt) (runFuel : Nat) (f : Flow)
    (st : FlowSt) (t e : Nat) (a : List Nat)
    (hf : flows[fid]? = some f) (hst : sts[fid]? = some st)
    (hex : (flowRunSt f st epid args runFuel).ex = RunExit.change t e a) :
    executeLoop flows (steps + 1) fid epid args sts runFuel =
      ⟨Ev.runFlow fid epid args :: ((flowRunSt f st epid args runFuel).tr ++
          (executeLoop flows steps t e a
            (sts.set fid (flowRunSt f st epid args runFuel).st) runFuel).tr),
        (executeLoop flows steps t e a
          (sts.set fid (flowRunSt f st epid args runFuel).st) runFuel).res⟩ := by
  rw [executeLoop]
  simp only [hf, hst, hex]

/-- The trampoline on an EndFlow exit: execute stops and returns the
carried value. -/
theorem executeLoop_endf (flows : List Flow) (steps fid epid : Nat)
    (args : List Nat) (sts : List FlowSt) (runFuel : Nat) (f : Flow)
    (st : FlowSt) (v : Nat)
    (hf : flows[fid]? = some f) (hst : sts[fid]? = some st)
    (hex : (flowRunSt f st epid args runFuel).ex = RunExit.endf v) :
    executeLoop flows (steps + 1) fid epid args sts runFuel =
      ⟨Ev.runFlow fid epid args :: (flowRunSt f st epid args runFuel).tr,
        ExecResult.ret v⟩ := by
  rw [executeLoop]
  simp only [hf, hst, hex]

/-- The trampoline on an error exit: the error propagates out of
execute. -/
theorem executeLoop_failed (flows : List Flow) (steps fid epid : Nat)
    (args : List Nat) (sts : List FlowSt) (runFuel : Nat) (f : Flow)
    (st : FlowSt) (e : Exc)
    (hf : flows[fid]? = some f) (hst : sts[fid]? = some st)
    (hex : (flowRunSt f st epid args runFuel).ex = RunExit.failed e) :
    executeLoop flows (steps + 1) fid epid args sts runFuel =
      ⟨Ev.runFlow fid epid args :: (flowRunSt f st epid args runFuel).tr,
        ExecResult.failed e⟩ := by
  rw [executeLoop]
  simp only [hf, hst, hex]

/-- The trampoline on a MissingEntryPoint exit: it propagates. -/
theorem executeLoop_missing (flows : List Flow) (steps fid epid : Nat)
    (args : List Nat) (sts : List FlowSt) (runFuel : Nat) (f : Flow)
    (st : FlowSt) (ep : Nat)
    (hf : flows[fid]? = some f) (hst : sts[fid]? = some st)
    (hex : (flowRunSt f st epid args runFuel).ex = RunExit.missingEntryPoint ep) :
    executeLoop flows (steps + 1) fid epid args sts runFuel =
      ⟨Ev.runFlow fid epid args :: (flowRunSt f st epid args runFuel).tr,
        ExecResult.missing ep⟩ := by
  rw [executeLoop]
  simp only [hf, hst, hex]

/-- Polling a source whose poll list is exhausted: NoEvent is raised
and swallowed, the loop moves on. -/
theorem pollSources_nil (hs : List Handler) (s : Source) (rest : List Source)
    (flag pr : Bool) (hpolls : s.polls = []) :
    pollSources hs (s :: rest) flag pr =
      ⟨Ev.poll s.label :: (pollSources hs rest flag pr).tr,
        (pollSources hs rest flag pr).flag,
        s :: (pollSources hs rest flag pr).srcs,
        (pollSources hs rest flag pr).res⟩ := by
  rw [pollSources]
  simp only [hpolls]

/-- Polling a source whose next poll raises NoEvent: swallowed, the
loop moves on with the poll consumed. -/
theorem pollSources_none (hs : List Handler) (s : Source) (rest : List Source)
    (flag pr : Bool) (tl : List (Option Nat)) (hpolls : s.polls = none :: tl) :
    pollSources hs (s :: rest) flag pr =
      ⟨Ev.poll s.label :: (pollSources hs rest flag pr).tr,
        (pollSources hs rest flag pr).flag,
        (⟨s.label, tl⟩ : Source) :: (pollSources hs rest flag pr).srcs,
        (pollSources hs rest flag pr).res⟩ := by
  rw [pollSources]
  simp only [hpolls]

/-- Polling a source that delivers an event whose dispatch completes
with the discard flag still clear: all handlers ran, then the loop
moves on to the next source. -/
theorem pollSources_deliver_cont (hs : List Handler) (s : Source)
    (rest : List Source) (flag pr : Bool) (e : Nat) (tl : List (Option Nat))
    (b : Bool) (hpolls : s.polls = some e :: tl)
    (hres : (process_event hs e flag).res = EvRes.ok b)
    (hf : (process_event hs e flag).flag = false) :
    pollSources hs (s :: rest) flag pr =
      ⟨Ev.poll s.label :: ((process_event hs e flag).tr ++
          (pollSources hs rest false (pr || b)).tr),
        (pollSources hs rest false (pr || b)).flag,
        (⟨s.label, tl⟩ : Source) :: (pollSources hs rest false (pr || b)).srcs,
        (pollSources hs rest false (pr || b)).res⟩ := by
  rw [pollSources]
  simp only [hpolls, hres]
  rw [if_neg (by simp [hf])]
  simp only [hf]

/-- Polling a source that delivers an event whose dispatch sets the
discard flag: the source is fully dispatched, then polling stops. -/
theorem pollSources_deliver_break (hs : List Handler) (s : Source)
    (rest : List Source) (flag pr : Bool) (e : Nat) (tl : List (Option Nat))
    (b : Bool) (hpolls : s.polls = some e :: tl)
    (hres : (process_event hs e flag).res = EvRes.ok b)
    (hf : (process_event hs e flag).flag = true) :
    pollSources hs (s :: rest) flag pr =
      ⟨Ev.poll s.label :: (process_event hs e flag).tr, true,
        (⟨s.label, tl⟩ : Source) :: rest, EvRes.ok (pr || b)⟩ := by
  rw [pollSources]
  simp only [hpolls, hres]
  rw [if_pos hf]
  simp only [hf]

/-- Polling a source whose event makes a handler raise NoEvent: the
exception is swallowed, the event does not count as processed, and the
loop moves on to the next source. -/
theorem pollSources_deliver_noev (hs : List Handler) (s : Source)
    (rest : List Source) (flag pr : Bool) (e : Nat) (tl : List (Option Nat))
    (hpolls : s.polls = some e :: tl)
    (hres : (process_event hs e flag).res = EvRes.raised Exc.noEvent) :
    pollSources hs (s :: rest) flag pr =
      ⟨Ev.poll s.label :: ((process_event hs e flag).tr ++
          (pollSources hs rest (process_event hs e flag).flag pr).tr),
        (pollSources hs rest (process_event hs e flag).flag pr).flag,
        (⟨s.label, tl⟩ : Source) ::
          (pollSources hs rest (process_event hs e flag).flag pr).srcs,
        (pollSources hs rest (process_event hs e flag).flag pr).res⟩ := by
  rw [pollSources]
  simp only [hpolls, hres]

/-- The discard protocol inside the polling loop: with the flag clear
at the start, non-raising handlers, and discard_events first requested
while dispatching source s, the loop fully dispatches every source up
to and including s and leaves the rest of the sources untouched. -/
theorem pollSources_discard (hs : List Handler) (l1 : List Source) (s : Source)
    (l2 : List Source) (pr : Bool)
    (hclean : ∀ h' ∈ hs, ∀ e, (h'.run e).exc = none)
    (h1 : ∀ s' ∈ l1, dispatchFlag hs s' = false)
    (h2 : dispatchFlag hs s = true) :
    pollSources hs (l1 ++ s :: l2) false pr =
      ⟨(l1 ++ [s]).flatMap (srcSweepTr hs), true,
        l1.map consumeSrc ++ consumeSrc s :: l2,
        EvRes.ok (pr || (l1 ++ [s]).any (srcHandled hs))⟩ := by
  induction l1 generalizing pr with
  | nil =>
    obtain ⟨lbl, polls⟩ := s
    rcases hpolls : polls with _ | ⟨oe, tl⟩ <;> subst hpolls
    · simp [dispatchFlag] at h2
    · rcases oe with _ | e
      · simp [dispatchFlag] at h2
      · have hd := process_event_clean hs e false (fun h' hm => hclean h' hm e)
        have hres : (process_event hs e false).res = EvRes.ok (anyHandled hs e) := by
          rw [hd]
        have hf : (process_event hs e false).flag = true := h2
        rw [List.nil_append,
          pollSources_deliver_break hs ⟨lbl, some e :: tl⟩ l2 false pr e tl
            (anyHandled hs e) rfl hres hf]
        simp [srcSweepTr, consumeSrc, srcHandled]
  | cons s0 restl ih =>
    have h10 : dispatchFlag hs s0 = false := h1 s0 (by simp)
    have h1rest : ∀ s' ∈ restl, dispatchFlag hs s' = false :=
      fun s' hm => h1 s' (by simp [hm])
    obtain ⟨lbl0, polls0⟩ := s0
    rcases hpolls : polls0 with _ | ⟨oe, tl⟩ <;> subst hpolls
    · rw [List.cons_append,
        pollSources_nil hs ⟨lbl0, []⟩ (restl ++ s :: l2) false pr rfl,
        ih pr h1rest]
      simp [srcSweepTr, consumeSrc, srcHandled]
    · rcases oe with _ | e
      · rw [List.cons_append,
          pollSources_none hs ⟨lbl0, none :: tl⟩ (restl ++ s :: l2) false pr tl rfl,
          ih pr h1rest]
        simp [srcSweepTr, consumeSrc, srcHandled]
      · have hd := process_event_clean hs e false (fun h' hm => hclean h' hm e)
        have hres : (process_event hs e false).res = EvRes.ok (anyHandled hs e) := by
          rw [hd]
        have hf : (process_event hs e false).flag = false := h10
        rw [List.cons_append,
          pollSources_deliver_cont hs ⟨lbl0, some e :: tl⟩ (restl ++ s :: l2)
            false pr e tl (anyHandled hs e) rfl hres hf,
          ih (pr || anyHandled hs e) h1rest]
        simp [srcSweepTr, consumeSrc, srcHandled, Bool.or_assoc]

/-- One unfolding of the loop with no pending entry point starts with
the sweep's trace. -/
theorem flowLoop_succ_tr_decomp (f : Flow) (fuel : Nat) (flag : Bool)
    (srcs : List Source) :
    ∃ t, (flowLoop f (fuel + 1) none flag srcs).tr =
      (sweepBody f flag srcs).tr ++ t := by
  rcases hexc : (iterBody f none flag srcs).exc with _ | e1
  · rw [flowLoop_cont f fuel none flag srcs hexc]
    exact ⟨_, rfl⟩
  · rw [flowLoop_raise f fuel none flag srcs e1 hexc]
    exact ⟨_, rfl⟩

/-! The claims. -/

/-- C1: the engine trampoline.  When the active flow's run exits with
ChangeFlow(B, e, args), execute rebinds its triple to (B, e, args) and
runs B next, with nothing in between; when a run exits with
EndFlow(v), execute returns normally with value v; an error exit makes
execute fail instead of returning; and in the concrete scenario where
flow A's entry point 10 ("go") immediately raises ChangeFlow(B, 20)
and flow B's entry point 20 immediately raises EndFlow(100, "done"),
execute(A, 10) returns 100. -/
theorem C1_engine_trampoline :
    (∀ (flows : List Flow) (steps fid epid : Nat) (args : List Nat)
        (sts : List FlowSt) (runFuel : Nat) (f : Flow) (st : FlowSt)
        (t e : Nat) (a : List Nat),
      flows[fid]? = some f → sts[fid]? = some st →
      (flowRunSt f st epid args runFuel).ex = RunExit.change t e a →
        executeLoop flows (steps + 1) fid epid args sts runFuel =
          ⟨Ev.runFlow fid epid args :: ((flowRunSt f st epid args runFuel).tr ++
              (executeLoop flows steps t e a
                (sts.set fid (flowRunSt f st epid args runFuel).st) runFuel).tr),
            (executeLoop flows steps t e a
              (sts.set fid (flowRunSt f st epid args runFuel).st) runFuel).res⟩) ∧
    (∀ (flows : List Flow) (steps fid epid : Nat) (args : List Nat)
        (sts : List FlowSt) (runFuel : Nat) (f : Flow) (st : FlowSt) (v : Nat),
      flows[fid]? = some f → sts[fid]? = some st →
      (flowRunSt f st epid args runFuel).ex = RunExit.endf v →
        executeLoop flows (steps + 1) fid epid args sts runFuel =
          ⟨Ev.runFlow fid epid args :: (flowRunSt f st epid args runFuel).tr,
            ExecResult.ret v⟩) ∧
    (∀ (flows : List Flow) (steps fid epid : Nat) (args : List Nat)
        (sts : List FlowSt) (runFuel : Nat) (f : Flow) (st : FlowSt) (e : Exc),
      flows[fid]? = some f → sts[fid]? = some st →
      (flowRunSt f st epid args runFuel).ex = RunExit.failed e →
        executeLoop flows (steps + 1) fid epid args sts runFuel =
          ⟨Ev.runFlow fid epid args :: (flowRunSt f st epid args runFuel).tr,
            ExecResult.failed e⟩) ∧
    execute [c1A, c1B] 0 10 [] 5 5 =
      ⟨[Ev.runFlow 0 10 [], Ev.entry 10 [], Ev.runFlow 1 20 [], Ev.entry 20 []],
        ExecResult.ret 100⟩ := by
  refine ⟨?_, ?_, ?_, by rfl⟩
  · intro flows steps fid epid args sts runFuel f st t e a hf hst hex
    exact executeLoop_change flows steps fid epid args sts runFuel f st t e a hf hst hex
  · intro flows steps fid epid args sts runFuel f st v hf hst hex
    exact executeLoop_endf flows steps fid epid args sts runFuel f st v hf hst hex
  · intro flows steps fid epid args sts runFuel f st e hf hst hex
    exact executeLoop_failed flows steps fid epid args sts runFuel f st e hf hst hex

/-- Witness for C1: flow A's run exits with ChangeFlow(1, 20, []) and
the trampoline equation holds at that concrete input. -/
theorem C1_engine_trampoline_witness :
    (flowRunSt c1A ⟨false, []⟩ 10 [] 1).ex = RunExit.change 1 20 [] ∧
    executeLoop [c1A, c1B] (0 + 1) 0 10 [] [⟨false, []⟩, ⟨false, []⟩] 1 =
      ⟨Ev.runFlow 0 10 [] :: ((flowRunSt c1A ⟨false, []⟩ 10 [] 1).tr ++
          (executeLoop [c1A, c1B] 0 1 20 []
            ([⟨false, []⟩, ⟨false, []⟩].set 0
              (flowRunSt c1A ⟨false, []⟩ 10 [] 1).st) 1).tr),
        (executeLoop [c1A, c1B] 0 1 20 []
          ([⟨false, []⟩, ⟨false, []⟩].set 0
            (flowRunSt c1A ⟨false, []⟩ 10 [] 1).st) 1).res⟩ :=
  ⟨by decide,
    C1_engine_trampoline.1 [c1A, c1B] 0 0 10 [] [⟨false, []⟩, ⟨false, []⟩] 1
      c1A ⟨false, []⟩ 1 20 [] rfl rfl (by decide)⟩

/-- C2: a ChangeFlow or EndFlow signal raised anywhere in an iteration
of a running flow (entry point, pre-action, handler or post-action)
halts the sweep at once; the trace of the run is the iteration's trace
followed by exactly one invocation of each termination action, in
registration order (the iteration itself never runs a termination
action), and then the signal leaves the flow.  Concretely, EndFlow 42
raised by a pre-action makes execute return 42 after termination
actions 8 and 9 each ran exactly once. -/
theorem C2_termination_actions :
    (∀ (f : Flow) (fuel : Nat) (pending : Option (Nat × List Nat × ActBeh))
        (flag : Bool) (srcs : List Source) (t ep : Nat) (a : List Nat),
      (iterBody f pending flag srcs).exc = some (Exc.changeFlow t ep a) →
        flowLoop f (fuel + 1) pending flag srcs =
          ⟨(iterBody f pending flag srcs).tr ++ f.onTermination.map Ev.term,
            RunExit.change t ep a,
            ⟨(iterBody f pending flag srcs).flag,
              (iterBody f pending flag srcs).srcs⟩⟩) ∧
    (∀ (f : Flow) (fuel : Nat) (pending : Option (Nat × List Nat × ActBeh))
        (flag : Bool) (srcs : List Source) (v : Nat),
      (iterBody f pending flag srcs).exc = some (Exc.endFlow v) →
        flowLoop f (fuel + 1) pending flag srcs =
          ⟨(iterBody f pending flag srcs).tr ++ f.onTermination.map Ev.term,
            RunExit.endf v,
            ⟨(iterBody f pending flag srcs).flag,
              (iterBody f pending flag srcs).srcs⟩⟩) ∧
    (∀ (f : Flow) (pending : Option (Nat × List Nat × ActBeh)) (flag : Bool)
        (srcs : List Source) (l : Nat),
      Ev.term l ∉ (iterBody f pending flag srcs).tr) ∧
    execute [c2F] 0 0 [] 2 2 =
      ⟨[Ev.runFlow 0 0 [], Ev.pre 5, Ev.term 8, Ev.term 9],
        ExecResult.ret 42⟩ := by
  refine ⟨?_, ?_, ?_, by rfl⟩
  · intro f fuel pending flag srcs t ep a hexc
    rw [flowLoop_raise f fuel pending flag srcs _ hexc]
    simp [handleExc]
  · intro f fuel pending flag srcs v hexc
    rw [flowLoop_raise f fuel pending flag srcs _ hexc]
    simp [handleExc]
  · intro f pending flag srcs l hmem
    have h := (iterBody_no_term_cleanup f pending flag srcs _ hmem).1
    simp [Ev.isTerm] at h

/-- Witness for C2: the concrete iteration raises EndFlow 42 and the
loop equation holds there. -/
theorem C2_termination_actions_witness :
    (iterBody c2F none false []).exc = some (Exc.endFlow 42) ∧
    flowLoop c2F (0 + 1) none false [] =
      ⟨(iterBody c2F none false []).tr ++ c2F.onTermination.map Ev.term,
        RunExit.endf 42,
        ⟨(iterBody c2F none false []).flag, (iterBody c2F none false []).srcs⟩⟩ :=
  ⟨by decide, C2_termination_actions.2.1 c2F 0 none false [] 42 (by decide)⟩

/-- C3 counterexample: the claim says a post-action registered with
mustHaveEvent=true executes whenever at least one event was delivered
by a source in the sweep.  In flow c3F source 3 delivers event 5 and
it is dispatched to handler 1, but the handler returns False, so the
code skips post-action 7: the gate is "some handler returned True",
not "an event was delivered". -/
theorem C3_counterexample :
    Ev.handler 1 5 ∈ (sweepBody c3F false c3F.eventSources).tr ∧
    (sweepBody c3F false c3F.eventSources).exc = none ∧
    Ev.post 7 ∉ (sweepBody c3F false c3F.eventSources).tr := by
  decide

/-- C3 (amended): in a sweep that completes without an exception,
every pre-action executes unconditionally in registration order; a
post-action with mustHaveEvent=true executes if and only if some
handler reported an event handled during that sweep's polling phase
(the boolean returned by _process_events), a post-action with
mustHaveEvent=false always executes, and post-actions run in
registration order. -/
theorem C3_post_action_gate :
    ∀ (f : Flow) (flag : Bool) (srcs : List Source) (hasEv : Bool),
      (∀ a ∈ f.preactions, a.beh.exc = none) →
      (∀ a ∈ f.postactions, a.1.beh.exc = none) →
      (process_events f.eventHandlers srcs
          (runActs Ev.pre f.preactions flag).flag).res = EvRes.ok hasEv →
      (sweepBody f flag srcs).tr =
        f.preactions.map (fun a => Ev.pre a.label) ++
          (process_events f.eventHandlers srcs
            (runActs Ev.pre f.preactions flag).flag).tr ++
          (f.postactions.filter (fun p => !p.2 || hasEv)).map
            (fun p => Ev.post p.1.label) ∧
      (sweepBody f flag srcs).exc = none := by
  intro f flag srcs hasEv hpre hpost hpe
  have ha := runActs_clean Ev.pre f.preactions flag hpre
  have hq := runPostActs_clean f.postactions hasEv
    (process_events f.eventHandlers srcs
      (runActs Ev.pre f.preactions flag).flag).flag hpost
  rw [sweepBody]
  rw [ha] at hpe ⊢
  rw [ha] at hq
  simp only [hpe, hq]
  simp

/-- Witness for C3 (amended): a concrete sweep where the delivered
event is reported handled, so the must-have-event post-action runs. -/
theorem C3_post_action_gate_witness :
    (∀ a ∈ c3W.preactions, a.beh.exc = none) ∧
    (process_events c3W.eventHandlers c3W.eventSources
        (runActs Ev.pre c3W.preactions false).flag).res = EvRes.ok true ∧
    ((sweepBody c3W false c3W.eventSources).tr =
        c3W.preactions.map (fun a => Ev.pre a.label) ++
          (process_events c3W.eventHandlers c3W.eventSources
            (runActs Ev.pre c3W.preactions false).flag).tr ++
          (c3W.postactions.filter (fun p => !p.2 || true)).map
            (fun p => Ev.post p.1.label) ∧
      (sweepBody c3W false c3W.eventSources).exc = none) :=
  ⟨by decide, by decide,
    C3_post_action_gate c3W false c3W.eventSources true (by decide) (by decide)
      (by decide)⟩

/-- C4: a non-control error (kind k) escaping an iteration makes the
flow run every registered exception action whose kind set contains k,
after the iteration's trace (which itself contains no exception
action), and then re-raise the error unchanged; the first matching
cleanup runs exactly once (given pairwise distinct cleanups); with no
matching kind set no cleanup runs and the error propagates untouched;
and the except clauses for ChangeFlow/EndFlow never run an exception
action. -/
theorem C4_exception_actions :
    (∀ (f : Flow) (fuel : Nat) (pending : Option (Nat × List Nat × ActBeh))
        (flag : Bool) (srcs : List Source) (k p : Nat),
      (iterBody f pending flag srcs).exc = some (Exc.err k p) →
        flowLoop f (fuel + 1) pending flag srcs =
          ⟨(iterBody f pending flag srcs).tr ++
              cleanupTrace f.onException k (Exc.err k p),
            RunExit.failed (Exc.err k p),
            ⟨(iterBody f pending flag srcs).flag,
              (iterBody f pending flag srcs).srcs⟩⟩) ∧
    (∀ (l1 : List (List Nat × Nat)) (ks : List Nat) (lbl : Nat)
        (l2 : List (List Nat × Nat)) (k : Nat) (e : Exc),
      (∀ q ∈ l1, q.1.contains k = false) → ks.contains k = true →
      lbl ∉ l2.map Prod.snd →
        List.count (Ev.cleanup lbl e)
          (cleanupTrace (l1 ++ (ks, lbl) :: l2) k e) = 1) ∧
    (∀ (table : List (List Nat × Nat)) (k : Nat) (e : Exc),
      (∀ q ∈ table, q.1.contains k = false) → cleanupTrace table k e = []) ∧
    (∀ (f : Flow) (pending : Option (Nat × List Nat × ActBeh)) (flag : Bool)
        (srcs : List Source) (l : Nat) (e' : Exc),
      Ev.cleanup l e' ∉ (iterBody f pending flag srcs).tr) ∧
    (∀ (f : Flow) (t ep : Nat) (a : List Nat) (l : Nat) (e' : Exc),
      Ev.cleanup l e' ∉ (handleExc f (Exc.changeFlow t ep a)).1) ∧
    (∀ (f : Flow) (v l : Nat) (e' : Exc),
      Ev.cleanup l e' ∉ (handleExc f (Exc.endFlow v)).1) := by
  refine ⟨?_, ?_, ?_, ?_, ?_, ?_⟩
  · intro f fuel pending flag srcs k p hexc
    rw [flowLoop_raise f fuel pending flag srcs _ hexc]
    simp [handleExc]
  · intro l1 ks lbl l2 k e h1 h2 h3
    exact cleanupTrace_count_first l1 ks lbl l2 k e h1 h2 h3
  · intro table k e h
    exact cleanupTrace_no_match table k e h
  · intro f pending flag srcs l e' hmem
    have h := (iterBody_no_term_cleanup f pending flag srcs _ hmem).2
    simp [Ev.isCleanup] at h
  · intro f t ep a l e' hmem
    simp only [handleExc] at hmem
    obtain ⟨q, _, hq⟩ := List.mem_map.mp hmem
    exact Ev.noConfusion hq
  · intro f v l e' hmem
    simp only [handleExc] at hmem
    obtain ⟨q, _, hq⟩ := List.mem_map.mp hmem
    exact Ev.noConfusion hq

/-- Witness for C4: in flow c4F handler 1 raises error kind 2; the
loop equation holds there, and on the concrete table the single
matching cleanup (label 12) runs exactly once. -/
theorem C4_exception_actions_witness :
    (iterBody c4F none false c4F.eventSources).exc = some (Exc.err 2 77) ∧
    flowLoop c4F (0 + 1) none false c4F.eventSources =
      ⟨(iterBody c4F none false c4F.eventSources).tr ++
          cleanupTrace c4F.onException 2 (Exc.err 2 77),
        RunExit.failed (Exc.err 2 77),
        ⟨(iterBody c4F none false c4F.eventSources).flag,
          (iterBody c4F none false c4F.eventSources).srcs⟩⟩ ∧
    List.count (Ev.cleanup 12 (Exc.err 2 77))
      (cleanupTrace ([([5], 11)] ++ ([2, 3], 12) :: []) 2 (Exc.err 2 77)) = 1 :=
  ⟨by decide,
    C4_exception_actions.1 c4F 0 none false c4F.eventSources 2 77 (by decide),
    C4_exception_actions.2.1 [([5], 11)] [2, 3] 12 [] 2 (Exc.err 2 77)
      (by decide) (by decide) (by decide)⟩

/-- C5: with the discard flag clear at the start of polling and
non-raising handlers, if discard_events is first requested while
dispatching source s (preceded by the sources l1, followed by l2),
then _process_events polls and fully dispatches exactly the sources
l1 and s, leaves the sources in l2 untouched, afterwards issues
exactly one discard_events call to every registered source in
order, and leaves the flag clear for the next sweep. -/
theorem C5_discard_protocol :
    ∀ (hs : List Handler) (l1 : List Source) (s : Source) (l2 : List Source),
      (∀ h' ∈ hs, ∀ e, (h'.run e).exc = none) →
      (∀ s' ∈ l1, dispatchFlag hs s' = false) →
      dispatchFlag hs s = true →
      process_events hs (l1 ++ s :: l2) false =
        ⟨(l1 ++ [s]).flatMap (srcSweepTr hs) ++
            (l1.map consumeSrc ++ consumeSrc s :: l2).map
              (fun s' => Ev.discard s'.label),
          false,
          l1.map consumeSrc ++ consumeSrc s :: l2,
          EvRes.ok ((l1 ++ [s]).any (srcHandled hs))⟩ := by
  intro hs l1 s l2 hclean h1 h2
  rw [process_events, pollSources_discard hs l1 s l2 false hclean h1 h2]
  simp

/-- Witness for C5: handler 1 requests discard on event 5; source 3
(event 4) is dispatched without discard, source 6 (event 5) triggers
it, source 7 is skipped, all three sources get one discard call. -/
theorem C5_discard_protocol_witness :
    dispatchFlag c5H c5Src1 = false ∧
    dispatchFlag c5H c5SrcI = true ∧
    process_events c5H ([c5Src1] ++ c5SrcI :: [c5Src2]) false =
      ⟨([c5Src1] ++ [c5SrcI]).flatMap (srcSweepTr c5H) ++
          ([c5Src1].map consumeSrc ++ consumeSrc c5SrcI :: [c5Src2]).map
            (fun s' => Ev.discard s'.label),
        false,
        [c5Src1].map consumeSrc ++ consumeSrc c5SrcI :: [c5Src2],
        EvRes.ok (([c5Src1] ++ [c5SrcI]).any (srcHandled c5H))⟩ :=
  ⟨by decide, by decide,
    C5_discard_protocol c5H [c5Src1] c5SrcI [c5Src2]
      (by
        intro h' hm e
        simp only [c5H, List.mem_singleton] at hm
        subst hm
        rfl)
      (by
        intro s' hm
        simp only [List.mem_singleton] at hm
        subst hm
        decide)
      (by decide)⟩

/-- C6: for an event obtained from a source, every registered handler
is invoked on it, in registration order, with no early exit when a
handler reports the event handled (the trace lists all handlers and
the result is the disjunction of their reports); and the full dispatch
of an event completes before the next source is polled. -/
theorem C6_all_handlers_every_event :
    (∀ (hs : List Handler) (e : Nat) (flag : Bool),
      (∀ h' ∈ hs, (h'.run e).exc = none) →
        process_event hs e flag =
          ⟨hs.map (fun h' => Ev.handler h'.label e), foldDiscard hs e flag,
            EvRes.ok (anyHandled hs e)⟩) ∧
    (∀ (hs : List Handler) (s : Source) (rest : List Source) (flag pr : Bool)
        (e : Nat) (tl : List (Option Nat)) (b : Bool),
      s.polls = some e :: tl →
      (process_event hs e flag).res = EvRes.ok b →
      (process_event hs e flag).flag = false →
        pollSources hs (s :: rest) flag pr =
          ⟨Ev.poll s.label :: ((process_event hs e flag).tr ++
              (pollSources hs rest false (pr || b)).tr),
            (pollSources hs rest false (pr || b)).flag,
            (⟨s.label, tl⟩ : Source) :: (pollSources hs rest false (pr || b)).srcs,
            (pollSources hs rest false (pr || b)).res⟩) :=
  ⟨fun hs e flag h => process_event_clean hs e flag h,
    fun hs s rest flag pr e tl b hpolls hres hf =>
      pollSources_deliver_cont hs s rest flag pr e tl b hpolls hres hf⟩

/-- Witness for C6: handler 1 reports event 5 handled and handler 2
still runs on it. -/
theorem C6_all_handlers_every_event_witness :
    (∀ h' ∈ c6H, (h'.run 5).exc = none) ∧
    process_event c6H 5 false =
      ⟨c6H.map (fun h' => Ev.handler h'.label 5), foldDiscard c6H 5 false,
        EvRes.ok (anyHandled c6H 5)⟩ :=
  ⟨by decide, C6_all_handlers_every_event.1 c6H 5 false (by decide)⟩

/-- C7: running a flow whose entry-point registry is non-empty with an
identifier absent from the registry fails with MissingEntryPoint and
an empty trace: no pre-action, poll, handler, post-action, exception
action or termination action ran, and the flow state is untouched. -/
theorem C7_missing_entry_point :
    ∀ (f : Flow) (st : FlowSt) (epid : Nat) (args : List Nat) (fuel : Nat),
      f.entryPoints ≠ [] →
      List.lookup epid f.entryPoints = none →
      flowRunSt f st epid args fuel =
        ⟨[], RunExit.missingEntryPoint epid, st⟩ := by
  intro f st epid args fuel hne hlook
  rcases hep : f.entryPoints with _ | ⟨p, rest⟩
  · exact absurd hep hne
  · rw [hep] at hlook
    simp only [flowRunSt, hep, hlook]

/-- Witness for C7: flow c7F has entry point 10 registered; running it
with identifier 99 fails before anything executes. -/
theorem C7_missing_entry_point_witness :
    c7F.entryPoints ≠ [] ∧
    List.lookup 99 c7F.entryPoints = none ∧
    flowRunSt c7F ⟨false, []⟩ 99 [] 3 =
      ⟨[], RunExit.missingEntryPoint 99, ⟨false, []⟩⟩ :=
  ⟨by simp [c7F, emptyFlow], rfl,
    C7_missing_entry_point c7F ⟨false, []⟩ 99 [] 3 (by simp [c7F, emptyFlow]) rfl⟩

/-- C8: a flow with zero registered entry points never fails with
MissingEntryPoint and never invokes an entry point when run, and when
it has a first pre-action that pre-action's invocation is the first
trace event of the run (sweep 1 starts immediately). -/
theorem C8_zero_entry_points :
    (∀ (f : Flow) (st : FlowSt) (epid : Nat) (args : List Nat) (fuel : Nat),
      f.entryPoints = [] → ∀ ep,
        (flowRunSt f st epid args fuel).ex ≠ RunExit.missingEntryPoint ep) ∧
    (∀ (f : Flow) (st : FlowSt) (epid : Nat) (args : List Nat) (fuel : Nat),
      f.entryPoints = [] → ∀ (name : Nat) (args2 : List Nat),
        Ev.entry name args2 ∉ (flowRunSt f st epid args fuel).tr) ∧
    (∀ (f : Flow) (st : FlowSt) (epid : Nat) (args : List Nat) (fuel : Nat)
        (a : Act) (rest : List Act),
      f.entryPoints = [] → f.preactions = a :: rest →
        ∃ t, (flowRunSt f st epid args (fuel + 1)).tr = Ev.pre a.label :: t) := by
  refine ⟨?_, ?_, ?_⟩
  · intro f st epid args fuel hep ep
    simp only [flowRunSt, hep]
    exact flowLoop_ex_ne_missing f fuel none st.flag st.srcs ep
  · intro f st epid args fuel hep name args2 hmem
    simp only [flowRunSt, hep] at hmem
    have h := flowLoop_none_no_entry f fuel st.flag st.srcs _ hmem
    simp [Ev.isEntry] at h
  · intro f st epid args fuel a rest hep hpre
    simp only [flowRunSt, hep]
    obtain ⟨t, ht⟩ := flowLoop_succ_tr_decomp f fuel st.flag st.srcs
    obtain ⟨t0, ht0⟩ := sweepBody_pre_head f st.flag st.srcs a rest hpre
    rw [ht, ht0]
    exact ⟨t0 ++ t, by simp⟩

/-- Witness for C8: flow c8F has no entry points; running it with any
identifier starts sweep 1 at pre-action 5 and raises no
MissingEntryPoint. -/
theorem C8_zero_entry_points_witness :
    c8F.entryPoints = [] ∧
    (flowRunSt c8F ⟨false, []⟩ 0 [] 1).ex ≠ RunExit.missingEntryPoint 0 ∧
    Ev.entry 0 [] ∉ (flowRunSt c8F ⟨false, []⟩ 0 [] 1).tr ∧
    (flowRunSt c8F ⟨false, []⟩ 0 [] (0 + 1)).tr.head? = some (Ev.pre 5) :=
  ⟨rfl,
    C8_zero_entry_points.1 c8F ⟨false, []⟩ 0 [] 1 rfl 0,
    C8_zero_entry_points.2.1 c8F ⟨false, []⟩ 0 [] 1 rfl 0 [],
    by
      obtain ⟨t, ht⟩ := C8_zero_entry_points.2.2 c8F ⟨false, []⟩ 0 [] 0
        ⟨5, ⟨false, some (Exc.endFlow 1)⟩⟩ [] rfl rfl
      rw [ht]
      rfl⟩

/-- C9: registering an entry-point name already present fails with the
duplicate-name error (the registry is untouched: no flow with a
modified registry is produced); registering a fresh name appends it;
and redefine_entry_point never fails and binds the name to the new
callable whether or not the name was present. -/
theorem C9_registration :
    (∀ (f : Flow) (name : Nat) (m : List Nat → ActBeh),
      (List.lookup name f.entryPoints).isSome = true →
        register_entry_point f name m = Except.error (RegError.duplicate name)) ∧
    (∀ (f : Flow) (name : Nat) (m : List Nat → ActBeh),
      (List.lookup name f.entryPoints).isSome = false →
        register_entry_point f name m =
          Except.ok { f with entryPoints := f.entryPoints ++ [(name, m)] }) ∧
    (∀ (f : Flow) (name : Nat) (m : List Nat → ActBeh),
      List.lookup name (redefine_entry_point f name m).entryPoints = some m) := by
  refine ⟨?_, ?_, ?_⟩
  · intro f name m h
    simp [register_entry_point, h]
  · intro f name m h
    simp [register_entry_point, h]
  · intro f name m
    exact lookup_dictSet f.entryPoints name m

/-- Witness for C9: name 10 is already registered on c7F, so
register refuses it while redefine rebinds it. -/
theorem C9_registration_witness :
    (List.lookup 10 c7F.entryPoints).isSome = true ∧
    register_entry_point c7F 10 c9M = Except.error (RegError.duplicate 10) ∧
    List.lookup 10 (redefine_entry_point c7F 10 c9M).entryPoints = some c9M :=
  ⟨rfl, C9_registration.1 c7F 10 c9M rfl, C9_registration.2.2 c7F 10 c9M⟩

/-- C10: a NoEvent raised by a handler mid-dispatch stops the dispatch
(the later handlers never see the event) and is swallowed by the
source loop: the event does not count as processed, polling continues
with the next source, and the exception reaches neither the
exception-action table nor the termination actions nor the caller of
execute - concretely, flow c10F's run returns 9 via the post-action's
EndFlow with no exception action run (despite one being registered for
the NoEvent kind) and its termination action run once. -/
theorem C10_noevent_swallowed :
    (∀ (g1 : List Handler) (h1 : Handler) (g2 : List Handler) (e : Nat)
        (flag : Bool),
      (∀ h' ∈ g1, (h'.run e).exc = none) →
      (h1.run e).exc = some Exc.noEvent →
        process_event (g1 ++ h1 :: g2) e flag =
          ⟨g1.map (fun h' => Ev.handler h'.label e) ++ [Ev.handler h1.label e],
            foldDiscard g1 e flag || (h1.run e).setDiscard,
            EvRes.raised Exc.noEvent⟩) ∧
    (∀ (hs : List Handler) (s : Source) (rest : List Source) (flag pr : Bool)
        (e : Nat) (tl : List (Option Nat)),
      s.polls = some e :: tl →
      (process_event hs e flag).res = EvRes.raised Exc.noEvent →
        pollSources hs (s :: rest) flag pr =
          ⟨Ev.poll s.label :: ((process_event hs e flag).tr ++
              (pollSources hs rest (process_event hs e flag).flag pr).tr),
            (pollSources hs rest (process_event hs e flag).flag pr).flag,
            (⟨s.label, tl⟩ : Source) ::
              (pollSources hs rest (process_event hs e flag).flag pr).srcs,
            (pollSources hs rest (process_event hs e flag).flag pr).res⟩) ∧
    execute [c10F] 0 0 [] 3 3 =
      ⟨[Ev.runFlow 0 0 [], Ev.poll 3, Ev.handler 1 5, Ev.poll 4,
          Ev.handler 1 6, Ev.post 7, Ev.term 13],
        ExecResult.ret 9⟩ :=
  ⟨fun g1 h1 g2 e flag hc hr =>
      process_event_raise g1 h1 g2 e flag Exc.noEvent hc hr,
    fun hs s rest flag pr e tl hpolls hres =>
      pollSources_deliver_noev hs s rest flag pr e tl hpolls hres,
    by rfl⟩

/-- Witness for C10: handler c10H raises NoEvent on event 5 and the
dispatch equation holds there. -/
theorem C10_noevent_swallowed_witness :
    (c10H.run 5).exc = some Exc.noEvent ∧
    process_event (([] : List Handler) ++ c10H :: []) 5 false =
      ⟨([] : List Handler).map (fun h' => Ev.handler h'.label 5) ++
          [Ev.handler c10H.label 5],
        foldDiscard [] 5 false || (c10H.run 5).setDiscard,
        EvRes.raised Exc.noEvent⟩ :=
  ⟨rfl, C10_noevent_swallowed.1 [] c10H [] 5 false (by simp) rfl⟩

end Mofloc
